import Mathlib

/-!
Verification of the metadata-driven C-backend conformance test runner
(`src/backends/c/tests/run_tests.py`).

The Python source is shallowly embedded as executable Lean definitions:
* strings are `String` (sequences of `Char`, matching Python `str` for the
  ASCII inputs the runner manipulates; Python `\s`, `str.strip`, `str.lower`
  and `int()` are modelled on their ASCII behaviour),
* a test file's text is given as its list of lines (as produced by
  `str.splitlines`, so lines carry no newline characters),
* the results of the three external subprocess invocations (the toolchain
  command, the `gcc` native build and the generated binary run) are inputs of
  type `ExecResult`, since the processes themselves are opaque collaborators,
* a raised Python `ValueError` is modelled as `Except.error` carrying the
  exception message; the interpreter's handling of an uncaught exception
  (traceback and process exit code 1) is modelled in `processExit`.
-/

/-- ASCII whitespace recognised by Python's `\s` regex class and `str.strip`
(`' '`, `'\t'`, `'\n'`, `'\r'`, `'\x0b'`, `'\x0c'`). -/
def isPySpace (c : Char) : Bool :=
  c == ' ' || c == '\t' || c == '\n' || c == '\r' || c == '\x0b' || c == '\x0c'

/-- Characters matched by the directive-key class `[A-Za-z0-9_-]`. -/
def isKeyChar (c : Char) : Bool :=
  c.isAlpha || c.isDigit || c == '_' || c == '-'

/-- ASCII lower-casing of one character, as `str.lower` acts on ASCII. -/
def lowerChar (c : Char) : Char :=
  if 'A' ≤ c ∧ c ≤ 'Z' then Char.ofNat (c.toNat + 32) else c

/-- `str.lower` (ASCII model). -/
def pyLower (s : String) : String := ⟨s.data.map lowerChar⟩

/-- Strip leading and trailing whitespace from a character list. -/
def pyStripList (l : List Char) : List Char :=
  (((l.dropWhile isPySpace).reverse).dropWhile isPySpace).reverse

/-- `str.strip()` (ASCII model). -/
def pyStrip (s : String) : String := ⟨pyStripList s.data⟩

/-- Substring test on character lists: `substrB pat hay` is true iff `pat`
occurs contiguously in `hay` (Python's `pat in hay`). -/
def substrB (pat : List Char) : List Char → Bool
  | [] => pat.isEmpty
  | c :: rest => pat.isPrefixOf (c :: rest) || substrB pat rest

/-- Python's `pat in hay` substring containment on strings. -/
def pyContains (hay pat : String) : Bool := substrB pat.data hay.data

/-- Numeric value of an ASCII digit. -/
def digitVal (c : Char) : Nat := c.toNat - 48

/-- Continuation of Python `int` digit parsing: after at least one digit,
further digits may be separated by single underscores (no trailing or doubled
underscore), as in CPython's base-10 grammar. -/
def pyDigitsAux (acc : Nat) : List Char → Option Nat
  | [] => some acc
  | '_' :: c :: rest =>
    if c.isDigit then pyDigitsAux (acc * 10 + digitVal c) rest else none
  | ['_'] => none
  | c :: rest =>
    if c.isDigit then pyDigitsAux (acc * 10 + digitVal c) rest else none

/-- Digit-run parsing for Python `int`: requires a leading digit. -/
def pyDigits : List Char → Option Nat
  | [] => none
  | c :: rest => if c.isDigit then pyDigitsAux (digitVal c) rest else none

/-- Python's `int(s)` in base 10 (ASCII model): optional surrounding
whitespace, optional single sign, then a digit run with optional single
underscore separators.  `none` models the raised `ValueError`. -/
def pyParseInt (s : String) : Option Int :=
  match pyStripList s.data with
  | '+' :: rest => (pyDigits rest).map (fun n => (n : Int))
  | '-' :: rest => (pyDigits rest).map (fun n => -(n : Int))
  | rest => (pyDigits rest).map (fun n => (n : Int))

/-- The directive-line regex `^\s*//\s*@([A-Za-z0-9_-]+)\s*:\s*(.*)$` applied
to one line, on character lists.  Returns the processed key
(`group(1).strip().lower()`; the key class contains no whitespace so only the
lower-casing matters) and processed value (`group(2).strip()`; the regex's
`\s*` before `group(2)` is absorbed by the strip). -/
def matchDirectiveL (l : List Char) : Option (String × String) :=
  match l.dropWhile isPySpace with
  | '/' :: '/' :: r1 =>
    match r1.dropWhile isPySpace with
    | '@' :: r2 =>
      match r2.takeWhile isKeyChar with
      | [] => none
      | _ :: _ =>
        match (r2.dropWhile isKeyChar).dropWhile isPySpace with
        | ':' :: r3 => some (pyLower ⟨r2.takeWhile isKeyChar⟩, pyStrip ⟨r3⟩)
        | _ => none
    | _ => none
  | _ => none

/-- `pattern.match(line)` followed by the key/value processing of
`parse_metadata`'s loop body. -/
def matchDirective (line : String) : Option (String × String) :=
  matchDirectiveL line.data

/-- The result of `parse_metadata`: the four directive values. -/
structure Metadata where
  command : String
  expectExit : Int
  expectStderr : Option String
  runGenerated : Bool
deriving DecidableEq

/-- The loop state of `parse_metadata`: `command` starts as Python `None`. -/
structure PState where
  command : Option String
  expectExit : Int
  expectStderr : Option String
  runGenerated : Bool
deriving DecidableEq

/-- Initial state of `parse_metadata`'s loop
(`command = None`, `expect_exit = 0`, `expect_stderr = None`,
`run_generated = False`). -/
def initState : PState := ⟨none, 0, none, false⟩

/-- `value.lower() in ("true", "1", "yes")` for the `run-generated` key. -/
def truthy (v : String) : Bool :=
  pyLower v == "true" || pyLower v == "1" || pyLower v == "yes"

/-- One iteration of `parse_metadata`'s key dispatch on a matched directive.
`Except.error` models the `ValueError` raised for a bad `@expect-exit`. -/
def applyDirective (path : String) (st : PState) (key value : String) :
    Except String PState :=
  if key == "command" then .ok { st with command := some value }
  else if key == "expect-exit" then
    match pyParseInt value with
    | some n => .ok { st with expectExit := n }
    | none => .error ("Invalid @expect-exit in " ++ path ++ ": " ++ value)
  else if key == "expect-stderr" then .ok { st with expectStderr := some value }
  else if key == "run-generated" then .ok { st with runGenerated := truthy value }
  else .ok st

/-- Processing of a single line of the test file: non-matching lines are
skipped (`continue`), matching ones update the state. -/
def parseStep (path : String) (st : PState) (line : String) :
    Except String PState :=
  match matchDirective line with
  | none => .ok st
  | some (k, v) => applyDirective path st k v

/-- The `for line in ...splitlines()` loop of `parse_metadata`. -/
def parseLines (path : String) (st : PState) : List String → Except String PState
  | [] => .ok st
  | l :: ls =>
    match parseStep path st l with
    | .error e => .error e
    | .ok st' => parseLines path st' ls

/-- `parse_metadata(path)` on the file's lines: run the directive loop, then
enforce `if not command: raise ValueError(...)` — which fires both when no
`@command` was seen (`None`) and when the last one's value is the empty
string (Python falsiness). -/
def parseMetadata (path : String) (lines : List String) : Except String Metadata :=
  match parseLines path initState lines with
  | .error e => .error e
  | .ok st =>
    match st.command with
    | none => .error ("Missing @command in " ++ path)
    | some c =>
      if c == "" then .error ("Missing @command in " ++ path)
      else .ok ⟨c, st.expectExit, st.expectStderr, st.runGenerated⟩

/-- The `\x7bVEXEL\x7d` placeholder token of `replace_macros`. -/
def vtokL : List Char := ['\x7b', 'V', 'E', 'X', 'E', 'L', '\x7d']

/-- The tail of the `\x7bVEXEL_FRONTEND\x7d` token after its opening brace. -/
def ftokTailL : List Char :=
  ['V', 'E', 'X', 'E', 'L', '_', 'F', 'R', 'O', 'N', 'T', 'E', 'N', 'D', '\x7d']

/-- The `\x7bVEXEL_FRONTEND\x7d` placeholder token of `replace_macros`. -/
def ftokL : List Char := '\x7b' :: ftokTailL

/-- `str(root / "build" / "vexel")`: `pathlib` path joining renders as the
root string followed by the slash-separated components. -/
def vexelPath (root : String) : String := root ++ "/build/vexel"

/-- `str(root / "build" / "vexel-frontend")`. -/
def frontendPath (root : String) : String := root ++ "/build/vexel-frontend"

/-- Fuel-indexed left-to-right non-overlapping replacement, the semantics of
Python's `str.replace(pat, rep)`: at each position, if the pattern starts
here, emit the replacement and resume after the matched pattern (the
replacement text is never rescanned); otherwise emit the character.  Fuel
equal to the input length suffices for nonempty patterns. -/
def pyReplaceFuel (pat rep : List Char) : Nat → List Char → List Char
  | _, [] => []
  | 0, s => s
  | f + 1, c :: rest =>
    if pat.isPrefixOf (c :: rest) then
      rep ++ pyReplaceFuel pat rep f ((c :: rest).drop pat.length)
    else c :: pyReplaceFuel pat rep f rest

/-- `s.replace(pat, rep)` for a nonempty pattern. -/
def pyReplace (pat rep s : List Char) : List Char := pyReplaceFuel pat rep s.length s

/-- `replace_macros(command, root)`: `command.replace("{VEXEL}", ...)` first,
then `.replace("{VEXEL_FRONTEND}", ...)` on the result, per the dictionary's
insertion order. -/
def replaceMacros (command root : String) : String :=
  ⟨pyReplace ftokL (frontendPath root).data
    (pyReplace vtokL (vexelPath root).data command.data)⟩

/-- The captured result of one `subprocess.run` invocation. -/
structure ExecResult where
  returncode : Int
  stdout : String
  stderr : String
deriving DecidableEq

/-- `compile_and_run(cwd)` as a function of the external world: `gccW` is
what the `gcc` invocation would return and `runW` what running `./out` would
return.  When `gcc` exits non-zero, `./out` is never run (`run_res = None`). -/
def compileAndRun (gccW runW : ExecResult) : ExecResult × Option ExecResult :=
  if gccW.returncode != 0 then (gccW, none) else (gccW, some runW)

/-- The verification state machine of `run_test` (lines 100-137), given the
parsed directives, the resolved command (used only in diagnostics) and the
external process results.  Returns the error string: `""` is a Pass (Python
falsy), a nonempty diagnostic is a Fail.  Messages are assembled exactly as
the source's f-strings (grouped right-associatively). -/
def runTestVerdict (testFile command : String) (expectExit : Int)
    (expectStderr : Option String) (runGenerated : Bool)
    (compileRes gccW runW : ExecResult) : String :=
  if runGenerated then
    if compileRes.returncode != 0 then
      "compile failed (expected 0) for " ++ (testFile ++ (".\n" ++
        ("command: " ++ (command ++ ("\n" ++
        ("stdout:\n" ++ (compileRes.stdout ++ ("\n" ++
        ("stderr:\n" ++ (compileRes.stderr ++ "\n"))))))))))
    else
      match compileAndRun gccW runW with
      | (gccRes, runRes) =>
        if gccRes.returncode != 0 then
          "gcc failed for " ++ (testFile ++ (".\n" ++
            ("stdout:\n" ++ (gccRes.stdout ++ ("\n" ++
            ("stderr:\n" ++ (gccRes.stderr ++ "\n")))))))
        else
          match runRes with
          | none =>
            "runtime exit mismatch for " ++ (testFile ++ (": expected " ++
              (toString expectExit ++ (", got unknown.\n" ++
              ("stdout:\n" ++ ("" ++ ("\n" ++
              ("stderr:\n" ++ ("" ++ "\n")))))))))
          | some r =>
            if r.returncode != expectExit then
              "runtime exit mismatch for " ++ (testFile ++ (": expected " ++
                (toString expectExit ++ (", got " ++
                (toString r.returncode ++ (".\n" ++
                ("stdout:\n" ++ (r.stdout ++ ("\n" ++
                ("stderr:\n" ++ (r.stderr ++ "\n")))))))))))
            else ""
  else
    if compileRes.returncode != expectExit then
      "exit mismatch for " ++ (testFile ++ (": expected " ++
        (toString expectExit ++ (", got " ++
        (toString compileRes.returncode ++ (".\n" ++
        ("command: " ++ (command ++ ("\n" ++
        ("stdout:\n" ++ (compileRes.stdout ++ ("\n" ++
        ("stderr:\n" ++ (compileRes.stderr ++ "\n"))))))))))))))
    else
      match expectStderr with
      | none => ""
      | some es =>
        if es != "" && !(pyContains compileRes.stderr es) then
          "stderr mismatch for " ++ (testFile ++ (": expected substring \x27" ++
            (es ++ ("\x27.\n" ++
            ("stderr:\n" ++ (compileRes.stderr ++ "\n"))))))
        else ""

/-- One discovered test file together with what the external world would
answer for its three possible subprocess invocations. -/
structure TestInput where
  path : String
  lines : List String
  toolRes : ExecResult
  gccRes : ExecResult
  runRes : ExecResult
deriving DecidableEq

/-- `run_test(test_file, root)`: parse the directives (a raised `ValueError`
propagates as `Except.error`), resolve macros, then run the verification
state machine on the captured results. -/
def runTest (root : String) (t : TestInput) : Except String String :=
  match parseMetadata t.path t.lines with
  | .error e => .error e
  | .ok md =>
    .ok (runTestVerdict t.path (replaceMacros md.command root) md.expectExit
      md.expectStderr md.runGenerated t.toolRes t.gccRes t.runRes)

/-- The failure-collecting loop of `main` (lines 148-152): verdicts are
appended when nonempty; an uncaught exception from `run_test` aborts the
loop. -/
def collectFailures (root : String) : List TestInput → Except String (List String)
  | [] => .ok []
  | t :: ts =>
    match runTest root t with
    | .error e => .error e
    | .ok v =>
      match collectFailures root ts with
      | .error e => .error e
      | .ok rest => .ok (if v == "" then rest else v :: rest)

/-- The failures `main` would collect when no test raises: the nonempty
verdicts in discovery order. -/
def failuresOf (root : String) (tests : List TestInput) : List String :=
  tests.filterMap fun t =>
    match runTest root t with
    | .ok v => if v == "" then none else some v
    | .error _ => none

/-- `main()` over the discovered test files (already sorted): returns the
process exit value and the printed report lines, or the uncaught exception. -/
def mainRun (root : String) (tests : List TestInput) :
    Except String (Int × List String) :=
  if tests.isEmpty then .ok (0, ["No backend C tests found."])
  else
    match collectFailures root tests with
    | .error e => .error e
    | .ok fails =>
      if fails.isEmpty then
        .ok (0, ["All backend C tests passed (" ++ toString tests.length ++ ")."])
      else
        .ok (1, fails.map (fun f => "FAIL: " ++ f) ++
          [toString fails.length ++ " backend C test(s) failed."])

/-- The operating-system exit code of `sys.exit(main())`: `main`'s return
value, or 1 when an exception escapes `main` (the Python interpreter prints
the traceback and exits with status 1). -/
def processExit (root : String) (tests : List TestInput) : Int :=
  match mainRun root tests with
  | .ok (n, _) => n
  | .error _ => 1

/-! ### Generic helper lemmas on strings, substrings and replacement -/

theorem string_data_append (a b : String) : (a ++ b).data = a.data ++ b.data := rfl

theorem append_ne_empty (a b : String) (h : a.data ≠ []) : a ++ b ≠ "" := by
  intro hc
  apply h
  have h2 : a.data ++ b.data = ([] : List Char) := congrArg String.data hc
  exact (List.append_eq_nil.mp h2).1

theorem prefixOf_exists : ∀ (p l : List Char), p.isPrefixOf l = true → ∃ t, p ++ t = l
  | [], l, _ => ⟨l, rfl⟩
  | c :: p', [], h => by simp at h
  | c :: p', b :: l', h => by
    rw [List.isPrefixOf_cons₂] at h
    simp only [Bool.and_eq_true, beq_iff_eq] at h
    obtain ⟨t, ht⟩ := prefixOf_exists p' l' h.2
    exact ⟨t, by rw [List.cons_append, ht, h.1]⟩

theorem isPrefixOf_append_self : ∀ (p s : List Char), p.isPrefixOf (p ++ s) = true
  | [], _ => List.isPrefixOf_nil_left
  | c :: p', s => by
    rw [List.cons_append, List.isPrefixOf_cons₂]
    simp [isPrefixOf_append_self p' s]

theorem isPrefixOf_append_left : ∀ (p a b : List Char),
    p.isPrefixOf a = true → p.isPrefixOf (a ++ b) = true
  | [], _, _, _ => List.isPrefixOf_nil_left
  | c :: p', [], b, h => by simp at h
  | c :: p', d :: a', b, h => by
    rw [List.isPrefixOf_cons₂] at h
    rw [List.cons_append, List.isPrefixOf_cons₂]
    simp only [Bool.and_eq_true] at h ⊢
    exact ⟨h.1, isPrefixOf_append_left p' a' b h.2⟩

theorem substrB_of_prefixOf {p h : List Char} (hp : p.isPrefixOf h = true) :
    substrB p h = true := by
  cases h with
  | nil =>
    cases p with
    | nil => rfl
    | cons c cs => simp [List.isPrefixOf] at hp
  | cons c rest => simp [substrB, hp]

theorem substrB_append_right (p a b : List Char) (hb : substrB p b = true) :
    substrB p (a ++ b) = true := by
  induction a with
  | nil => simpa using hb
  | cons c a' ih => simp [substrB, ih]

theorem substrB_nil_pat : ∀ (l : List Char), substrB [] l = true
  | [] => rfl
  | c :: rest => by simp [substrB, List.isPrefixOf]

theorem pyContains_append_right (a b pat : String) (h : pyContains b pat = true) :
    pyContains (a ++ b) pat = true := by
  unfold pyContains at *
  rw [string_data_append]
  exact substrB_append_right _ _ _ h

theorem pyContains_here (pat rest : String) : pyContains (pat ++ rest) pat = true := by
  unfold pyContains
  rw [string_data_append]
  exact substrB_of_prefixOf (isPrefixOf_append_self _ _)

theorem pyContains_lit_head (lit rest pat : String)
    (h : pat.data.isPrefixOf lit.data = true) : pyContains (lit ++ rest) pat = true := by
  unfold pyContains
  rw [string_data_append]
  exact substrB_of_prefixOf (isPrefixOf_append_left _ _ _ h)

theorem pyContains_empty (s : String) : pyContains s "" = true := substrB_nil_pat _

theorem pyReplaceFuel_congr (pat rep : List Char) (hpat : pat ≠ []) :
    ∀ (f₁ f₂ : Nat) (s : List Char), s.length ≤ f₁ → s.length ≤ f₂ →
      pyReplaceFuel pat rep f₁ s = pyReplaceFuel pat rep f₂ s := by
  have hp1 : 1 ≤ pat.length := List.length_pos.mpr hpat
  intro f₁
  induction f₁ with
  | zero =>
    intro f₂ s h1 h2
    have : s = [] := List.eq_nil_of_length_eq_zero (Nat.le_zero.mp h1)
    subst this
    cases f₂ <;> rfl
  | succ f ih =>
    intro f₂ s h1 h2
    cases s with
    | nil => cases f₂ <;> rfl
    | cons c rest =>
      cases f₂ with
      | zero => simp at h2
      | succ g =>
        simp only [pyReplaceFuel]
        by_cases hpre : pat.isPrefixOf (c :: rest) = true
        · rw [if_pos hpre, if_pos hpre]
          congr 1
          apply ih
          · simp only [List.length_drop, List.length_cons]
            simp only [List.length_cons] at h1
            omega
          · simp only [List.length_drop, List.length_cons]
            simp only [List.length_cons] at h2
            omega
        · rw [if_neg hpre, if_neg hpre]
          simp only [List.length_cons] at h1 h2
          rw [ih g rest (by omega) (by omega)]

theorem pyReplace_nil (pat rep : List Char) : pyReplace pat rep [] = [] := rfl

theorem pyReplace_cons_pos (pat rep : List Char) (c : Char) (rest : List Char)
    (hpat : pat ≠ []) (h : pat.isPrefixOf (c :: rest) = true) :
    pyReplace pat rep (c :: rest) =
      rep ++ pyReplace pat rep ((c :: rest).drop pat.length) := by
  have hp1 : 1 ≤ pat.length := List.length_pos.mpr hpat
  show pyReplaceFuel pat rep (rest.length + 1) (c :: rest) = _
  simp only [pyReplaceFuel]
  rw [if_pos h]
  congr 1
  apply pyReplaceFuel_congr pat rep hpat
  · simp only [List.length_drop, List.length_cons]
    omega
  · exact Nat.le_refl _

theorem pyReplace_cons_neg (pat rep : List Char) (c : Char) (rest : List Char)
    (h : pat.isPrefixOf (c :: rest) = false) :
    pyReplace pat rep (c :: rest) = c :: pyReplace pat rep rest := by
  show pyReplaceFuel pat rep (rest.length + 1) (c :: rest) = _
  simp only [pyReplaceFuel]
  rw [if_neg (by simp [h])]
  rfl

/-! ### Branch characterisations of the verification state machine -/

theorem genVerdict_compile_failed (tf cmd : String) (ee : Int) (es : Option String)
    (tool gccW runW : ExecResult) (h1 : tool.returncode ≠ 0) :
    runTestVerdict tf cmd ee es true tool gccW runW =
      "compile failed (expected 0) for " ++ (tf ++ (".\n" ++
        ("command: " ++ (cmd ++ ("\n" ++
        ("stdout:\n" ++ (tool.stdout ++ ("\n" ++
        ("stderr:\n" ++ (tool.stderr ++ "\n")))))))))) := by
  simp [runTestVerdict, h1]

theorem genVerdict_gcc_failed (tf cmd : String) (ee : Int) (es : Option String)
    (tool gccW runW : ExecResult) (h1 : tool.returncode = 0)
    (h2 : gccW.returncode ≠ 0) :
    runTestVerdict tf cmd ee es true tool gccW runW =
      "gcc failed for " ++ (tf ++ (".\n" ++
        ("stdout:\n" ++ (gccW.stdout ++ ("\n" ++
        ("stderr:\n" ++ (gccW.stderr ++ "\n"))))))) := by
  simp [runTestVerdict, compileAndRun, h1, h2]

theorem genVerdict_run_mismatch (tf cmd : String) (ee : Int) (es : Option String)
    (tool gccW runW : ExecResult) (h1 : tool.returncode = 0)
    (h2 : gccW.returncode = 0) (h3 : runW.returncode ≠ ee) :
    runTestVerdict tf cmd ee es true tool gccW runW =
      "runtime exit mismatch for " ++ (tf ++ (": expected " ++
        (toString ee ++ (", got " ++
        (toString runW.returncode ++ (".\n" ++
        ("stdout:\n" ++ (runW.stdout ++ ("\n" ++
        ("stderr:\n" ++ (runW.stderr ++ "\n"))))))))))) := by
  simp [runTestVerdict, compileAndRun, h1, h2, h3]

theorem genVerdict_pass (tf cmd : String) (ee : Int) (es : Option String)
    (tool gccW runW : ExecResult) (h1 : tool.returncode = 0)
    (h2 : gccW.returncode = 0) (h3 : runW.returncode = ee) :
    runTestVerdict tf cmd ee es true tool gccW runW = "" := by
  simp [runTestVerdict, compileAndRun, h1, h2, h3]

theorem genVerdict_empty_iff (tf cmd : String) (ee : Int) (es : Option String)
    (tool gccW runW : ExecResult) :
    runTestVerdict tf cmd ee es true tool gccW runW = "" ↔
      (tool.returncode = 0 ∧ gccW.returncode = 0 ∧ runW.returncode = ee) := by
  by_cases h1 : tool.returncode = 0
  · by_cases h2 : gccW.returncode = 0
    · by_cases h3 : runW.returncode = ee
      · simp [genVerdict_pass tf cmd ee es tool gccW runW h1 h2 h3, h1, h2, h3]
      · rw [genVerdict_run_mismatch tf cmd ee es tool gccW runW h1 h2 h3]
        simp only [h1, h2, h3, and_false, iff_false]
        exact append_ne_empty _ _ (by decide)
    · rw [genVerdict_gcc_failed tf cmd ee es tool gccW runW h1 h2]
      simp only [h2, false_and, and_false, iff_false]
      exact append_ne_empty _ _ (by decide)
  · rw [genVerdict_compile_failed tf cmd ee es tool gccW runW h1]
    simp only [h1, false_and, iff_false]
    exact append_ne_empty _ _ (by decide)

theorem directVerdict_exit_mismatch (tf cmd : String) (ee : Int)
    (es : Option String) (tool gccW runW : ExecResult)
    (h1 : tool.returncode ≠ ee) :
    runTestVerdict tf cmd ee es false tool gccW runW =
      "exit mismatch for " ++ (tf ++ (": expected " ++
        (toString ee ++ (", got " ++
        (toString tool.returncode ++ (".\n" ++
        ("command: " ++ (cmd ++ ("\n" ++
        ("stdout:\n" ++ (tool.stdout ++ ("\n" ++
        ("stderr:\n" ++ (tool.stderr ++ "\n")))))))))))))) := by
  simp [runTestVerdict, h1]

theorem directVerdict_stderr_mismatch (tf cmd : String) (ee : Int) (s : String)
    (tool gccW runW : ExecResult) (h1 : tool.returncode = ee) (h2 : s ≠ "")
    (h3 : pyContains tool.stderr s = false) :
    runTestVerdict tf cmd ee (some s) false tool gccW runW =
      "stderr mismatch for " ++ (tf ++ (": expected substring \x27" ++
        (s ++ ("\x27.\n" ++
        ("stderr:\n" ++ (tool.stderr ++ "\n")))))) := by
  simp [runTestVerdict, h1, h2, h3]

theorem directVerdict_empty_iff (tf cmd : String) (ee : Int) (es : Option String)
    (tool gccW runW : ExecResult) :
    runTestVerdict tf cmd ee es false tool gccW runW = "" ↔
      (tool.returncode = ee ∧ ∀ s, es = some s → pyContains tool.stderr s = true) := by
  by_cases h1 : tool.returncode = ee
  · cases es with
    | none => simp [runTestVerdict, h1]
    | some s =>
      by_cases h2 : s = ""
      · subst h2
        simp [runTestVerdict, h1, pyContains_empty]
      · by_cases h3 : pyContains tool.stderr s = true
        · simp [runTestVerdict, h1, h2, h3]
        · rw [directVerdict_stderr_mismatch tf cmd ee s tool gccW runW h1 h2
            (Bool.eq_false_iff.mpr h3)]
          constructor
          · intro h
            exact absurd h (append_ne_empty _ _ (by decide))
          · rintro ⟨-, hc⟩
            exact absurd (hc s rfl) h3
  · rw [directVerdict_exit_mismatch tf cmd ee es tool gccW runW h1]
    simp only [h1, false_and, iff_false]
    exact append_ne_empty _ _ (by decide)

/-! ### Claim-side statement of the Macro Resolver contract (C9)

`specTokenize`/`specRender` render the spec's words for `replace_macros`: the
template decomposes into recognized placeholder tokens (scanned greedily left
to right) and remaining literal characters; rendering substitutes each token
by its build-artifact path and keeps every literal character unchanged. -/

inductive MacroChunk where
  | vexel : MacroChunk
  | frontend : MacroChunk
  | lit : Char → MacroChunk
deriving DecidableEq

/-- Greedy left-to-right decomposition of a template into placeholder tokens
and literal characters (fuel-indexed; fuel = input length suffices). -/
def specTokenizeFuel : Nat → List Char → List MacroChunk
  | _, [] => []
  | 0, _ => []
  | f + 1, c :: rest =>
    if vtokL.isPrefixOf (c :: rest) then
      .vexel :: specTokenizeFuel f ((c :: rest).drop vtokL.length)
    else if ftokL.isPrefixOf (c :: rest) then
      .frontend :: specTokenizeFuel f ((c :: rest).drop ftokL.length)
    else .lit c :: specTokenizeFuel f rest

/-- Decomposition of a command template into tokens and literals. -/
def specTokenize (s : List Char) : List MacroChunk := specTokenizeFuel s.length s

/-- Spec-side meaning of one chunk: placeholder tokens become the absolute
artifact paths under the root; literal characters stay themselves. -/
def specRenderChunk (root : String) : MacroChunk → List Char
  | .vexel => (vexelPath root).data
  | .frontend => (frontendPath root).data
  | .lit c => [c]

/-- Spec-side resolution: every token replaced, everything else verbatim. -/
def specRender (root : String) (cs : List MacroChunk) : List Char :=
  cs.foldr (fun ch acc => specRenderChunk root ch ++ acc) []

theorem specTokenizeFuel_congr :
    ∀ (f₁ f₂ : Nat) (s : List Char), s.length ≤ f₁ → s.length ≤ f₂ →
      specTokenizeFuel f₁ s = specTokenizeFuel f₂ s := by
  intro f₁
  induction f₁ with
  | zero =>
    intro f₂ s h1 h2
    have : s = [] := List.eq_nil_of_length_eq_zero (Nat.le_zero.mp h1)
    subst this
    cases f₂ <;> rfl
  | succ f ih =>
    intro f₂ s h1 h2
    cases s with
    | nil => cases f₂ <;> rfl
    | cons c rest =>
      cases f₂ with
      | zero => simp at h2
      | succ g =>
        simp only [specTokenizeFuel]
        simp only [List.length_cons] at h1 h2
        by_cases hv : vtokL.isPrefixOf (c :: rest) = true
        · rw [if_pos hv, if_pos hv]
          congr 1
          apply ih
          · simp only [List.length_drop, List.length_cons]
            have : vtokL.length = 7 := rfl
            omega
          · simp only [List.length_drop, List.length_cons]
            have : vtokL.length = 7 := rfl
            omega
        · rw [if_neg hv, if_neg hv]
          by_cases hf : ftokL.isPrefixOf (c :: rest) = true
          · rw [if_pos hf, if_pos hf]
            congr 1
            apply ih
            · simp only [List.length_drop, List.length_cons]
              have : ftokL.length = 16 := rfl
              omega
            · simp only [List.length_drop, List.length_cons]
              have : ftokL.length = 16 := rfl
              omega
          · rw [if_neg hf, if_neg hf]
            rw [ih g rest (by omega) (by omega)]

theorem specTokenize_cons_vexel (c : Char) (rest : List Char)
    (h : vtokL.isPrefixOf (c :: rest) = true) :
    specTokenize (c :: rest) = .vexel :: specTokenize ((c :: rest).drop vtokL.length) := by
  show specTokenizeFuel (rest.length + 1) (c :: rest) = _
  simp only [specTokenizeFuel]
  rw [if_pos h]
  congr 1
  apply specTokenizeFuel_congr
  · simp only [List.length_drop, List.length_cons]
    have : vtokL.length = 7 := rfl
    omega
  · exact Nat.le_refl _

theorem specTokenize_cons_frontend (c : Char) (rest : List Char)
    (hv : vtokL.isPrefixOf (c :: rest) = false)
    (hf : ftokL.isPrefixOf (c :: rest) = true) :
    specTokenize (c :: rest) = .frontend :: specTokenize ((c :: rest).drop ftokL.length) := by
  show specTokenizeFuel (rest.length + 1) (c :: rest) = _
  simp only [specTokenizeFuel]
  rw [if_neg (by simp [hv]), if_pos hf]
  congr 1
  apply specTokenizeFuel_congr
  · simp only [List.length_drop, List.length_cons]
    have : ftokL.length = 16 := rfl
    omega
  · exact Nat.le_refl _

theorem specTokenize_cons_lit (c : Char) (rest : List Char)
    (hv : vtokL.isPrefixOf (c :: rest) = false)
    (hf : ftokL.isPrefixOf (c :: rest) = false) :
    specTokenize (c :: rest) = .lit c :: specTokenize rest := by
  show specTokenizeFuel (rest.length + 1) (c :: rest) = _
  simp only [specTokenizeFuel]
  rw [if_neg (by simp [hv]), if_neg (by simp [hf])]
  rfl

theorem pyReplace_append_skip (p₀ : Char) (pt rep : List Char) :
    ∀ (a s : List Char), p₀ ∉ a →
      pyReplace (p₀ :: pt) rep (a ++ s) = a ++ pyReplace (p₀ :: pt) rep s := by
  intro a
  induction a with
  | nil => intro s _; rfl
  | cons c a' ih =>
    intro s ha
    have hc : (p₀ :: pt).isPrefixOf (c :: (a' ++ s)) = false := by
      rw [List.isPrefixOf_cons₂]
      have : p₀ ≠ c := fun h => ha (by simp [h])
      simp [this]
    rw [List.cons_append, pyReplace_cons_neg _ _ _ _ hc,
      ih s (fun hm => ha (by simp [hm])), List.cons_append]

theorem pyReplace_at_match (pat rep s : List Char) (hpat : pat ≠ []) :
    pyReplace pat rep (pat ++ s) = rep ++ pyReplace pat rep s := by
  cases pat with
  | nil => exact absurd rfl hpat
  | cons p₀ pt =>
    have hpre : (p₀ :: pt).isPrefixOf (p₀ :: (pt ++ s)) = true := by
      rw [show p₀ :: (pt ++ s) = (p₀ :: pt) ++ s from rfl]
      exact isPrefixOf_append_self _ _
    rw [List.cons_append, pyReplace_cons_pos _ _ _ _ hpat hpre]
    congr 1
    rw [show p₀ :: (pt ++ s) = (p₀ :: pt) ++ s from rfl, List.drop_left]

/-- Replacing `\x7bVEXEL\x7d` by a path starting with a slash cannot create a
fresh occurrence of a slash-free pattern at the front of the output: if the
pattern (a suffix of the frontend token's tail) was not a prefix of the input,
it is not a prefix of the replaced output either. -/
theorem ftail_no_new (vp' : List Char) :
    ∀ (n : Nat) (rest p : List Char), rest.length ≤ n → p ≠ [] → '/' ∉ p →
      p.isPrefixOf rest = false →
      p.isPrefixOf (pyReplace vtokL ('/' :: vp') rest) = false := by
  intro n
  induction n with
  | zero =>
    intro rest p hlen hne hsl _
    have : rest = [] := List.eq_nil_of_length_eq_zero (Nat.le_zero.mp hlen)
    subst this
    rw [pyReplace_nil]
    cases p with
    | nil => exact absurd rfl hne
    | cons c p' => simp
  | succ n ih =>
    intro rest p hlen hne hsl hpre
    cases rest with
    | nil =>
      rw [pyReplace_nil]
      cases p with
      | nil => exact absurd rfl hne
      | cons c p' => simp
    | cons c rest' =>
      simp only [List.length_cons] at hlen
      by_cases hv : vtokL.isPrefixOf (c :: rest') = true
      · rw [pyReplace_cons_pos _ _ _ _ (by decide) hv]
        cases p with
        | nil => exact absurd rfl hne
        | cons q₀ q' =>
          rw [List.cons_append, List.isPrefixOf_cons₂]
          have hq : q₀ ≠ '/' := fun h => hsl (by simp [h])
          simp [hq]
      · rw [pyReplace_cons_neg _ _ _ _ (Bool.eq_false_iff.mpr hv)]
        cases p with
        | nil => exact absurd rfl hne
        | cons q₀ q' =>
          rw [List.isPrefixOf_cons₂] at hpre ⊢
          by_cases hq : (q₀ == c) = true
          · rw [hq, Bool.true_and] at hpre ⊢
            cases q' with
            | nil => simp at hpre
            | cons r₀ r' =>
              exact ih rest' (r₀ :: r') (by omega) (by simp)
                (fun hm => hsl (List.mem_cons_of_mem _ hm)) hpre
          · rw [Bool.eq_false_iff.mpr hq, Bool.false_and]

theorem pyReplace_vtok_skip (rep a s : List Char) (ha : '\x7b' ∉ a) :
    pyReplace vtokL rep (a ++ s) = a ++ pyReplace vtokL rep s :=
  pyReplace_append_skip '\x7b' ['V', 'E', 'X', 'E', 'L', '\x7d'] rep a s ha

theorem pyReplace_ftok_skip (rep a s : List Char) (ha : '\x7b' ∉ a) :
    pyReplace ftokL rep (a ++ s) = a ++ pyReplace ftokL rep s :=
  pyReplace_append_skip '\x7b' ftokTailL rep a s ha

/-- Core refinement for the Macro Resolver: for an absolute, brace-free root,
the two sequential `str.replace` passes of `replace_macros` compute exactly
the spec-side render of the greedy token decomposition. -/
theorem replace_eq_render_aux (root : String) (hopen : '\x7b' ∉ root.data)
    (habs : root.data = [] ∨ root.data.head? = some '/') :
    ∀ (n : Nat) (s : List Char), s.length ≤ n →
      pyReplace ftokL (frontendPath root).data
        (pyReplace vtokL (vexelPath root).data s) =
      specRender root (specTokenize s) := by
  have hvdata : (vexelPath root).data = root.data ++ "/build/vexel".data :=
    string_data_append root "/build/vexel"
  have hvOpen : '\x7b' ∉ (vexelPath root).data := by
    rw [hvdata]
    intro hmem
    rcases List.mem_append.mp hmem with h | h
    · exact hopen h
    · revert h
      decide
  have hvHead : ∃ vp', (vexelPath root).data = '/' :: vp' := by
    rcases habs with h | h
    · refine ⟨"build/vexel".data, ?_⟩
      rw [hvdata, h]
      rfl
    · obtain ⟨c, t, hct⟩ : ∃ c t, root.data = c :: t := by
        cases hr : root.data with
        | nil => rw [hr] at h; simp at h
        | cons c t => exact ⟨c, t, rfl⟩
      rw [hct] at h
      simp only [List.head?_cons, Option.some.injEq] at h
      refine ⟨t ++ "/build/vexel".data, ?_⟩
      rw [hvdata, hct, h]
      rfl
  intro n
  induction n with
  | zero =>
    intro s hlen
    have : s = [] := List.eq_nil_of_length_eq_zero (Nat.le_zero.mp hlen)
    subst this
    rfl
  | succ n ih =>
    intro s hlen
    cases s with
    | nil => rfl
    | cons c rest =>
      simp only [List.length_cons] at hlen
      by_cases hv : vtokL.isPrefixOf (c :: rest) = true
      · -- a \x7bVEXEL\x7d occurrence: both passes and the tokenizer agree
        rw [pyReplace_cons_pos _ _ _ _ (by decide) hv]
        rw [pyReplace_ftok_skip _ _ _ hvOpen]
        rw [ih ((c :: rest).drop vtokL.length)
          (by
            simp only [List.length_drop, List.length_cons]
            have h7 : vtokL.length = 7 := rfl
            omega)]
        rw [specTokenize_cons_vexel c rest hv]
        rfl
      · by_cases hf : ftokL.isPrefixOf (c :: rest) = true
        · -- a \x7bVEXEL_FRONTEND\x7d occurrence
          obtain ⟨t, ht⟩ := prefixOf_exists ftokL (c :: rest) hf
          have ht' : '\x7b' :: (ftokTailL ++ t) = c :: rest := ht
          injection ht' with hc hrest
          subst hc
          subst hrest
          rw [pyReplace_cons_neg _ _ _ _ (Bool.eq_false_iff.mpr hv)]
          rw [pyReplace_vtok_skip _ _ _ (by decide)]
          rw [show ('\x7b' : Char) :: (ftokTailL ++
            pyReplace vtokL (vexelPath root).data t) =
            ftokL ++ pyReplace vtokL (vexelPath root).data t from rfl]
          rw [pyReplace_at_match ftokL _ _ (by decide)]
          have hlt : t.length ≤ n := by
            simp only [List.length_append] at hlen
            have h15 : ftokTailL.length = 15 := rfl
            omega
          rw [ih t hlt]
          rw [specTokenize_cons_frontend '\x7b' (ftokTailL ++ t)
            (Bool.eq_false_iff.mpr hv) hf]
          have hdrop : (('\x7b' : Char) :: (ftokTailL ++ t)).drop ftokL.length = t :=
            List.drop_left ftokL t
          rw [hdrop]
          rfl
        · -- a literal character
          rw [pyReplace_cons_neg _ _ _ _ (Bool.eq_false_iff.mpr hv)]
          have hf2 : ftokL.isPrefixOf
              (c :: pyReplace vtokL (vexelPath root).data rest) = false := by
            rw [show ftokL = '\x7b' :: ftokTailL from rfl, List.isPrefixOf_cons₂]
            by_cases hc : ('\x7b' == c) = true
            · rw [hc, Bool.true_and]
              have hftail : ftokTailL.isPrefixOf rest = false := by
                rw [show ftokL = '\x7b' :: ftokTailL from rfl,
                  List.isPrefixOf_cons₂, hc, Bool.true_and] at hf
                exact Bool.eq_false_iff.mpr hf
              obtain ⟨vp', hvp⟩ := hvHead
              rw [hvp]
              exact ftail_no_new vp' rest.length rest ftokTailL (Nat.le_refl _)
                (by decide) (by decide) hftail
            · rw [Bool.eq_false_iff.mpr hc, Bool.false_and]
          rw [pyReplace_cons_neg _ _ _ _ hf2]
          rw [ih rest (by omega)]
          rw [specTokenize_cons_lit c rest (Bool.eq_false_iff.mpr hv)
            (Bool.eq_false_iff.mpr hf)]
          rfl

/-! ### Directive-parsing lemmas -/

/-- A line carrying an `@expect-exit` directive whose value `int()` rejects
(the only kind of line on which `parse_metadata`'s loop raises). -/
def lineBadExpectExit (l : String) : Bool :=
  match matchDirective l with
  | some (k, v) => k == "expect-exit" && (pyParseInt v).isNone
  | none => false

theorem parseStep_ok_of_not_bad (path : String) (st : PState) (l : String)
    (h : lineBadExpectExit l = false) : ∃ st', parseStep path st l = .ok st' := by
  cases hm : matchDirective l with
  | none => exact ⟨st, by simp [parseStep, hm]⟩
  | some kv =>
    obtain ⟨k, v⟩ := kv
    simp only [lineBadExpectExit, hm, Bool.and_eq_true, beq_iff_eq,
      Bool.and_eq_false_iff] at h
    simp only [parseStep, hm, applyDirective]
    by_cases hk1 : (k == "command") = true
    · rw [if_pos hk1]
      exact ⟨_, rfl⟩
    · rw [if_neg hk1]
      by_cases hk2 : (k == "expect-exit") = true
      · rw [if_pos hk2]
        cases hp : pyParseInt v with
        | some n => exact ⟨_, rfl⟩
        | none =>
          rcases h with h | h
          · rw [beq_iff_eq] at hk2
            exact absurd hk2 (by simpa using h)
          · rw [hp] at h
            simp at h
      · rw [if_neg hk2]
        by_cases hk3 : (k == "expect-stderr") = true
        · rw [if_pos hk3]
          exact ⟨_, rfl⟩
        · rw [if_neg hk3]
          by_cases hk4 : (k == "run-generated") = true
          · rw [if_pos hk4]
            exact ⟨_, rfl⟩
          · rw [if_neg hk4]
            exact ⟨_, rfl⟩

theorem parseLines_append (path : String) :
    ∀ (xs : List String) (st : PState) (ys : List String),
      parseLines path st (xs ++ ys) =
        match parseLines path st xs with
        | .ok st' => parseLines path st' ys
        | .error e => .error e := by
  intro xs
  induction xs with
  | nil => intro st ys; rfl
  | cons l xs' ih =>
    intro st ys
    simp only [List.cons_append, parseLines]
    cases hs : parseStep path st l with
    | error e => rfl
    | ok st' => exact ih st' ys

theorem matchDirective_expect_exit (v : String) (hv : pyStrip v = v) :
    matchDirective ("// @expect-exit: " ++ v) = some ("expect-exit", v) := by
  have h : matchDirective ("// @expect-exit: " ++ v) =
      some ("expect-exit", pyStrip v) := rfl
  rw [h, hv]

theorem parseStep_bad_expect_exit (path : String) (st : PState) (v : String)
    (hv : pyStrip v = v) (hbad : pyParseInt v = none) :
    parseStep path st ("// @expect-exit: " ++ v) =
      .error ("Invalid @expect-exit in " ++ path ++ ": " ++ v) := by
  simp only [parseStep, matchDirective_expect_exit v hv, applyDirective, hbad]
  rw [if_neg (by decide), if_pos (by decide)]

/-- Claim-side reading of "last occurrence wins": the value of the final
`@command` directive in file order, if any. -/
def lastCommandValue : List String → Option String
  | [] => none
  | l :: ls =>
    match lastCommandValue ls with
    | some v => some v
    | none =>
      match matchDirective l with
      | some (k, v) => if k == "command" then some v else none
      | none => none

theorem parseStep_command (path : String) (st st' : PState) (l : String)
    (h : parseStep path st l = .ok st') :
    st'.command = match matchDirective l with
      | some (k, v) => if k == "command" then some v else st.command
      | none => st.command := by
  cases hm : matchDirective l with
  | none =>
    simp only [parseStep, hm] at h
    injection h with h
    subst h
    simp [hm]
  | some kv =>
    obtain ⟨k, v⟩ := kv
    simp only [parseStep, hm, applyDirective] at h
    simp only [hm]
    by_cases hk1 : (k == "command") = true
    · rw [if_pos hk1] at h
      injection h with h
      rw [← h, if_pos hk1]
    · rw [if_neg hk1] at h
      rw [if_neg hk1]
      by_cases hk2 : (k == "expect-exit") = true
      · rw [if_pos hk2] at h
        cases hp : pyParseInt v with
        | some n =>
          rw [hp] at h
          injection h with h
          rw [← h]
        | none =>
          rw [hp] at h
          exact Except.noConfusion h
      · rw [if_neg hk2] at h
        by_cases hk3 : (k == "expect-stderr") = true
        · rw [if_pos hk3] at h
          injection h with h
          rw [← h]
        · rw [if_neg hk3] at h
          by_cases hk4 : (k == "run-generated") = true
          · rw [if_pos hk4] at h
            injection h with h
            rw [← h]
          · rw [if_neg hk4] at h
            injection h with h
            rw [← h]

theorem parseLines_command (path : String) :
    ∀ (ls : List String) (st st' : PState),
      parseLines path st ls = .ok st' →
      st'.command = match lastCommandValue ls with
        | some v => some v
        | none => st.command := by
  intro ls
  induction ls with
  | nil =>
    intro st st' h
    injection h with h
    subst h
    rfl
  | cons l ls' ih =>
    intro st st' h
    unfold parseLines at h
    cases hs : parseStep path st l with
    | error e =>
      rw [hs] at h
      exact Except.noConfusion h
    | ok st₁ =>
      rw [hs] at h
      have h1 := ih st₁ st' h
      have h2 := parseStep_command path st st₁ l hs
      show st'.command = match lastCommandValue (l :: ls') with
        | some v => some v
        | none => st.command
      have hl : lastCommandValue (l :: ls') =
          match lastCommandValue ls' with
          | some v => some v
          | none =>
            match matchDirective l with
            | some (k, v) => if k == "command" then some v else none
            | none => none := rfl
      rw [hl]
      cases hlc : lastCommandValue ls' with
      | some v =>
        rw [hlc] at h1
        exact h1
      | none =>
        rw [hlc] at h1
        simp only at h1
        rw [h1, h2]
        cases hm : matchDirective l with
        | none => rfl
        | some kv =>
          obtain ⟨k, v⟩ := kv
          simp only
          by_cases hk : (k == "command") = true
          · rw [if_pos hk, if_pos hk]
          · rw [if_neg hk, if_neg hk]

/-! ### Aggregator lemmas -/

theorem exists_ok_of_isOk {e : Except String String} (h : e.isOk = true) :
    ∃ v, e = .ok v := by
  cases e with
  | ok v => exact ⟨v, rfl⟩
  | error e' => simp [Except.isOk, Except.toBool] at h

theorem collectFailures_error (root : String) :
    ∀ (pre : List TestInput) (t : TestInput) (post : List TestInput) (e : String),
      (∀ t' ∈ pre, (runTest root t').isOk = true) →
      runTest root t = .error e →
      collectFailures root (pre ++ t :: post) = .error e := by
  intro pre
  induction pre with
  | nil =>
    intro t post e _ ht
    simp only [List.nil_append, collectFailures, ht]
  | cons p pre' ih =>
    intro t post e hok ht
    obtain ⟨v, hv⟩ := exists_ok_of_isOk (hok p (by simp))
    simp only [List.cons_append, collectFailures, hv]
    rw [show pre'.append (t :: post) = pre' ++ t :: post from rfl,
      ih t post e (fun t' ht' => hok t' (by simp [ht'])) ht]

theorem collectFailures_ok (root : String) :
    ∀ (tests : List TestInput), (∀ t ∈ tests, (runTest root t).isOk = true) →
      collectFailures root tests = .ok (failuresOf root tests) := by
  intro tests
  induction tests with
  | nil => intro _; rfl
  | cons t ts ih =>
    intro hok
    obtain ⟨v, hv⟩ := exists_ok_of_isOk (hok t (by simp))
    simp only [collectFailures, hv, ih (fun t' h => hok t' (by simp [h]))]
    unfold failuresOf
    rw [List.filterMap_cons]
    simp only [hv]
    by_cases he : (v == "") = true
    · rw [if_pos he, if_pos he]
    · rw [if_neg he, if_neg he]

theorem mainRun_error (root : String) (pre : List TestInput) (t : TestInput)
    (post : List TestInput) (e : String)
    (hok : ∀ t' ∈ pre, (runTest root t').isOk = true)
    (ht : runTest root t = .error e) :
    mainRun root (pre ++ t :: post) = .error e := by
  unfold mainRun
  rw [if_neg (by simp), collectFailures_error root pre t post e hok ht]

theorem mainRun_ok (root : String) (tests : List TestInput)
    (hok : ∀ t ∈ tests, (runTest root t).isOk = true) :
    mainRun root tests =
      if tests.isEmpty then .ok (0, ["No backend C tests found."])
      else if (failuresOf root tests).isEmpty then
        .ok (0, ["All backend C tests passed (" ++ toString tests.length ++ ")."])
      else .ok (1, (failuresOf root tests).map (fun f => "FAIL: " ++ f) ++
        [toString (failuresOf root tests).length ++ " backend C test(s) failed."]) := by
  unfold mainRun
  by_cases hemp : tests.isEmpty = true
  · rw [if_pos hemp, if_pos hemp]
  · rw [if_neg hemp, if_neg hemp, collectFailures_ok root tests hok]

/-! ### Example fixtures -/

/-- A process result with the given exit code and quiet streams. -/
def quietRes (n : Int) : ExecResult := ⟨n, "", ""⟩

/-- A test file with no directives at all (so `@command` is missing). -/
def exBad : TestInput :=
  ⟨"tests/a/test.vx", ["int main(void);"], quietRes 0, quietRes 0, quietRes 0⟩

/-- A well-formed test file whose toolchain invocation succeeds (a Pass). -/
def exGood : TestInput :=
  ⟨"tests/b/test.vx", ["// @command: \x7bVEXEL\x7d build test.vx"],
    quietRes 0, quietRes 0, quietRes 0⟩

/-- A well-formed test file whose toolchain exit code misses `@expect-exit`
(a genuine test failure). -/
def exFail : TestInput :=
  ⟨"tests/c/test.vx", ["// @command: run", "// @expect-exit: 2"],
    quietRes 0, quietRes 0, quietRes 0⟩

/-- A toolchain result that succeeded. -/
def exToolOk : ExecResult := ⟨0, "", ""⟩

/-- A failing native (`gcc`) build with output on both streams. -/
def exGccFail : ExecResult := ⟨1, "gcc out", "gcc err"⟩

/-! ### Claims -/

/-- Claim C2 counterexample: with `run-generated` true, toolchain exit 0 and a
failing native build, the Fail diagnostic does not contain the words
"native build failed" anywhere (the code prints "gcc failed for ..."). -/
theorem c2_counterexample :
    pyContains (runTestVerdict "t.vx" "cmd" 0 none true exToolOk exGccFail
      (quietRes 0)) "native build failed" = false ∧
    runTestVerdict "t.vx" "cmd" 0 none true exToolOk exGccFail (quietRes 0) ≠ "" := by
  exact ⟨rfl, by decide⟩

/-- Claim C2 (amended): in generated-artifact mode, a non-zero native compiler
exit makes the outcome Fail with a diagnostic containing "gcc failed" (not
"native build failed") and including the native compiler's own stdout and
stderr, so it is textually distinguishable from a runtime exit mismatch. -/
theorem c2_amended (tf cmd : String) (ee : Int) (es : Option String)
    (tool gccW runW : ExecResult) (h1 : tool.returncode = 0)
    (h2 : gccW.returncode ≠ 0) :
    runTestVerdict tf cmd ee es true tool gccW runW ≠ "" ∧
    pyContains (runTestVerdict tf cmd ee es true tool gccW runW)
      "gcc failed" = true ∧
    pyContains (runTestVerdict tf cmd ee es true tool gccW runW)
      gccW.stdout = true ∧
    pyContains (runTestVerdict tf cmd ee es true tool gccW runW)
      gccW.stderr = true := by
  rw [genVerdict_gcc_failed tf cmd ee es tool gccW runW h1 h2]
  refine ⟨append_ne_empty _ _ (by decide),
    pyContains_lit_head _ _ _ (by decide), ?_, ?_⟩
  · apply pyContains_append_right
    apply pyContains_append_right
    apply pyContains_append_right
    apply pyContains_append_right
    exact pyContains_here _ _
  · apply pyContains_append_right
    apply pyContains_append_right
    apply pyContains_append_right
    apply pyContains_append_right
    apply pyContains_append_right
    apply pyContains_append_right
    apply pyContains_append_right
    exact pyContains_here _ _

/-- Witness for the amended C2 at a concrete failing native build. -/
theorem c2_witness :
    runTestVerdict "t.vx" "cmd" 0 none true exToolOk exGccFail (quietRes 0) ≠ "" ∧
    pyContains (runTestVerdict "t.vx" "cmd" 0 none true exToolOk exGccFail
      (quietRes 0)) "gcc failed" = true ∧
    pyContains (runTestVerdict "t.vx" "cmd" 0 none true exToolOk exGccFail
      (quietRes 0)) exGccFail.stdout = true ∧
    pyContains (runTestVerdict "t.vx" "cmd" 0 none true exToolOk exGccFail
      (quietRes 0)) exGccFail.stderr = true :=
  c2_amended "t.vx" "cmd" 0 none exToolOk exGccFail (quietRes 0) rfl (by decide)

/-- Claim C3: with `run-generated` false, the outcome is Pass (empty verdict)
iff the toolchain exit code equals `expect-exit` and, when an `expect-stderr`
substring is set, it occurs in the captured stderr; an exit-code mismatch
yields a Fail diagnostic showing the expected and actual exit codes and both
captured streams, and a missing stderr substring yields a Fail diagnostic
showing the expected substring and the captured stderr. -/
theorem c3_direct_mode (tf cmd : String) (ee : Int) (es : Option String)
    (tool gccW runW : ExecResult) :
    (runTestVerdict tf cmd ee es false tool gccW runW = "" ↔
      (tool.returncode = ee ∧ ∀ s, es = some s → pyContains tool.stderr s = true)) ∧
    (tool.returncode ≠ ee →
      pyContains (runTestVerdict tf cmd ee es false tool gccW runW)
        (toString ee) = true ∧
      pyContains (runTestVerdict tf cmd ee es false tool gccW runW)
        (toString tool.returncode) = true ∧
      pyContains (runTestVerdict tf cmd ee es false tool gccW runW)
        tool.stdout = true ∧
      pyContains (runTestVerdict tf cmd ee es false tool gccW runW)
        tool.stderr = true) ∧
    (∀ s, es = some s → tool.returncode = ee →
      runTestVerdict tf cmd ee es false tool gccW runW ≠ "" →
      pyContains (runTestVerdict tf cmd ee es false tool gccW runW) s = true ∧
      pyContains (runTestVerdict tf cmd ee es false tool gccW runW)
        tool.stderr = true) := by
  refine ⟨directVerdict_empty_iff tf cmd ee es tool gccW runW, ?_, ?_⟩
  · intro h1
    rw [directVerdict_exit_mismatch tf cmd ee es tool gccW runW h1]
    refine ⟨?_, ?_, ?_, ?_⟩
    · apply pyContains_append_right
      apply pyContains_append_right
      apply pyContains_append_right
      exact pyContains_here _ _
    · apply pyContains_append_right
      apply pyContains_append_right
      apply pyContains_append_right
      apply pyContains_append_right
      apply pyContains_append_right
      exact pyContains_here _ _
    · apply pyContains_append_right
      apply pyContains_append_right
      apply pyContains_append_right
      apply pyContains_append_right
      apply pyContains_append_right
      apply pyContains_append_right
      apply pyContains_append_right
      apply pyContains_append_right
      apply pyContains_append_right
      apply pyContains_append_right
      apply pyContains_append_right
      exact pyContains_here _ _
    · apply pyContains_append_right
      apply pyContains_append_right
      apply pyContains_append_right
      apply pyContains_append_right
      apply pyContains_append_right
      apply pyContains_append_right
      apply pyContains_append_right
      apply pyContains_append_right
      apply pyContains_append_right
      apply pyContains_append_right
      apply pyContains_append_right
      apply pyContains_append_right
      apply pyContains_append_right
      apply pyContains_append_right
      exact pyContains_here _ _
  · intro s hes h1 hne
    subst hes
    by_cases h3 : pyContains tool.stderr s = true
    · exact absurd ((directVerdict_empty_iff tf cmd ee (some s) tool gccW runW).mpr
        ⟨h1, fun s' hs' => by
          rw [Option.some.injEq] at hs'
          rw [← hs']
          exact h3⟩) hne
    · have h2 : s ≠ "" := fun hs => h3 (by rw [hs]; exact pyContains_empty _)
      rw [directVerdict_stderr_mismatch tf cmd ee s tool gccW runW h1 h2
        (Bool.eq_false_iff.mpr h3)]
      constructor
      · apply pyContains_append_right
        apply pyContains_append_right
        apply pyContains_append_right
        exact pyContains_here _ _
      · apply pyContains_append_right
        apply pyContains_append_right
        apply pyContains_append_right
        apply pyContains_append_right
        apply pyContains_append_right
        apply pyContains_append_right
        exact pyContains_here _ _

/-- Witness for C3 at a concrete exit-code mismatch (expected 1, got 0). -/
theorem c3_witness :
    pyContains (runTestVerdict "t.vx" "c" 1 (some "boom") false
      ⟨0, "out", "err"⟩ (quietRes 0) (quietRes 0)) (toString (1 : Int)) = true ∧
    pyContains (runTestVerdict "t.vx" "c" 1 (some "boom") false
      ⟨0, "out", "err"⟩ (quietRes 0) (quietRes 0))
      (toString (ExecResult.mk 0 "out" "err").returncode) = true ∧
    pyContains (runTestVerdict "t.vx" "c" 1 (some "boom") false
      ⟨0, "out", "err"⟩ (quietRes 0) (quietRes 0))
      (ExecResult.mk 0 "out" "err").stdout = true ∧
    pyContains (runTestVerdict "t.vx" "c" 1 (some "boom") false
      ⟨0, "out", "err"⟩ (quietRes 0) (quietRes 0))
      (ExecResult.mk 0 "out" "err").stderr = true :=
  (c3_direct_mode "t.vx" "c" 1 (some "boom") ⟨0, "out", "err"⟩
    (quietRes 0) (quietRes 0)).2.1 (by decide)

/-- Claim C4: with `run-generated` true, any non-zero toolchain exit yields
Fail with a diagnostic containing "compile failed", for every declared
`expect-exit` value — the declared value is not compared at this stage. -/
theorem c4_generated_compile_failed (tf cmd : String) (ee : Int)
    (es : Option String) (tool gccW runW : ExecResult)
    (h1 : tool.returncode ≠ 0) :
    runTestVerdict tf cmd ee es true tool gccW runW ≠ "" ∧
    pyContains (runTestVerdict tf cmd ee es true tool gccW runW)
      "compile failed" = true := by
  rw [genVerdict_compile_failed tf cmd ee es tool gccW runW h1]
  exact ⟨append_ne_empty _ _ (by decide), pyContains_lit_head _ _ _ (by decide)⟩

/-- Witness for C4 where `expect-exit` even equals the toolchain's non-zero
exit code (5): the outcome is still Fail. -/
theorem c4_witness :
    runTestVerdict "t.vx" "c" 5 none true ⟨5, "", ""⟩ (quietRes 0)
      (quietRes 0) ≠ "" ∧
    pyContains (runTestVerdict "t.vx" "c" 5 none true ⟨5, "", ""⟩ (quietRes 0)
      (quietRes 0)) "compile failed" = true :=
  c4_generated_compile_failed "t.vx" "c" 5 none ⟨5, "", ""⟩ (quietRes 0)
    (quietRes 0) (by decide)

/-- Claim C5: with `run-generated` true, the outcome is Pass exactly when the
toolchain exits 0, the native build exits 0 and the native binary's exit code
equals `expect-exit`.  The right-hand side mentions neither `expect-stderr`
nor any stream content: the `expect-stderr` directive is never consulted in
this mode and no stage's stderr affects the Pass/Fail outcome. -/
theorem c5_generated_pass_iff (tf cmd : String) (ee : Int) (es : Option String)
    (tool gccW runW : ExecResult) :
    runTestVerdict tf cmd ee es true tool gccW runW = "" ↔
      (tool.returncode = 0 ∧ gccW.returncode = 0 ∧ runW.returncode = ee) :=
  genVerdict_empty_iff tf cmd ee es tool gccW runW

theorem parseLines_ok_of_all_good (path : String) :
    ∀ (ls : List String), (∀ l ∈ ls, lineBadExpectExit l = false) →
      ∀ st, ∃ st', parseLines path st ls = .ok st' := by
  intro ls
  induction ls with
  | nil => intro _ st; exact ⟨st, rfl⟩
  | cons l ls' ih =>
    intro hgood st
    obtain ⟨st₁, h₁⟩ := parseStep_ok_of_not_bad path st l (hgood l (by simp))
    obtain ⟨st', h'⟩ := ih (fun l' hl' => hgood l' (by simp [hl'])) st₁
    refine ⟨st', ?_⟩
    simp [parseLines, h₁, h']

/-- Claim C7: an `@expect-exit` directive whose value `int()` rejects makes
directive parsing fail with a ValueError naming the offending file and value,
at the first such occurrence (all earlier lines carry no invalid
`@expect-exit`), regardless of what else the file contains — in particular
even when a valid `@command` precedes it and further invalid occurrences
follow. -/
theorem c7_invalid_expect_exit (path v : String) (pre post : List String)
    (hv : pyStrip v = v) (hbad : pyParseInt v = none)
    (hpre : ∀ l ∈ pre, lineBadExpectExit l = false) :
    parseMetadata path (pre ++ ("// @expect-exit: " ++ v) :: post) =
      .error ("Invalid @expect-exit in " ++ path ++ ": " ++ v) := by
  obtain ⟨st, hst⟩ := parseLines_ok_of_all_good path pre hpre initState
  unfold parseMetadata
  rw [parseLines_append path pre initState (("// @expect-exit: " ++ v) :: post),
    hst]
  simp [parseLines, parseStep_bad_expect_exit path st v hv hbad]

/-- Witness for C7: a valid `@command` precedes the invalid `@expect-exit`,
and a second invalid occurrence follows; the error names the first value. -/
theorem c7_witness :
    parseMetadata "t.vx"
      (["// @command: run"] ++ ("// @expect-exit: " ++ "4x") ::
        ["// @expect-exit: 9z"]) =
      .error ("Invalid @expect-exit in " ++ "t.vx" ++ ": " ++ "4x") :=
  c7_invalid_expect_exit "t.vx" "4x" ["// @command: run"]
    ["// @expect-exit: 9z"] rfl rfl (by decide)

/-- Claim C8: whenever `parse_metadata` succeeds, the parsed command is the
verbatim value of the last `@command` occurrence in file order (earlier
occurrences are discarded, no merging). -/
theorem c8_last_command_wins (path : String) (lines : List String) (md : Metadata)
    (h : parseMetadata path lines = .ok md) :
    lastCommandValue lines = some md.command := by
  unfold parseMetadata at h
  cases hp : parseLines path initState lines with
  | error e =>
    rw [hp] at h
    exact Except.noConfusion h
  | ok st =>
    simp only [hp] at h
    have hcmd := parseLines_command path lines initState st hp
    cases hc : st.command with
    | none =>
      simp only [hc] at h
      exact Except.noConfusion h
    | some c =>
      simp only [hc] at h
      by_cases hce : (c == "") = true
      · rw [if_pos hce] at h
        exact Except.noConfusion h
      · rw [if_neg hce] at h
        injection h with h
        rw [hc] at hcmd
        cases hlc : lastCommandValue lines with
        | some v =>
          rw [hlc] at hcmd
          have hcv : some c = some v := hcmd
          injection hcv with hcv
          rw [← h]
          exact congrArg some hcv.symm
        | none =>
          rw [hlc] at hcmd
          exact Option.noConfusion (show some c = (none : Option String) from hcmd)

/-- Witness for C8: two `@command` directives; the later one is parsed. -/
theorem c8_witness :
    lastCommandValue ["// @command: first", "// @command: second"] =
      some "second" :=
  c8_last_command_wins "t.vx" ["// @command: first", "// @command: second"]
    ⟨"second", 0, none, false⟩ rfl

/-- Claim C9: macro resolution replaces every occurrence of each recognized
placeholder token by the absolute path of the corresponding build artifact
under the root, and leaves every other part of the template — including
unrecognized brace-delimited tokens — unchanged: the result equals the
claim-side render of the greedy token decomposition.  The root is assumed
brace-free and absolute (empty or starting with a slash), which holds for
every filesystem root the runner passes in. -/
theorem c9_macro_resolution (command root : String) (hopen : '\x7b' ∉ root.data)
    (habs : root.data = [] ∨ root.data.head? = some '/') :
    replaceMacros command root = ⟨specRender root (specTokenize command.data)⟩ := by
  unfold replaceMacros
  exact congrArg String.mk
    (replace_eq_render_aux root hopen habs command.data.length command.data
      (Nat.le_refl _))

/-- Witness for C9 on a template with both tokens and an unknown token; the
second conjunct shows the concrete resolved command. -/
theorem c9_witness :
    replaceMacros "run \x7bVEXEL\x7d x \x7bFOO\x7d \x7bVEXEL_FRONTEND\x7d" "/r" =
      ⟨specRender "/r" (specTokenize
        ("run \x7bVEXEL\x7d x \x7bFOO\x7d \x7bVEXEL_FRONTEND\x7d").data)⟩ ∧
    replaceMacros "run \x7bVEXEL\x7d x \x7bFOO\x7d \x7bVEXEL_FRONTEND\x7d" "/r" =
      "run /r/build/vexel x \x7bFOO\x7d /r/build/vexel-frontend" :=
  ⟨c9_macro_resolution "run \x7bVEXEL\x7d x \x7bFOO\x7d \x7bVEXEL_FRONTEND\x7d"
    "/r" (by decide) (Or.inr rfl), rfl⟩

/-- Claim C10: a final `@command` whose value strips to the empty string is
treated exactly like a missing `@command`: parsing raises the
missing-`@command` error, even when an earlier occurrence was nonempty. -/
theorem c10_empty_command (path : String) (lines : List String) (st : PState)
    (hok : parseLines path initState lines = .ok st)
    (hlast : lastCommandValue lines = some "") :
    parseMetadata path lines = .error ("Missing @command in " ++ path) := by
  have hcmd := parseLines_command path lines initState st hok
  rw [hlast] at hcmd
  have hc : st.command = some "" := hcmd
  simp [parseMetadata, hok, hc]

/-- Witness for C10: an earlier nonempty `@command` followed by an empty one
still yields the missing-`@command` error. -/
theorem c10_witness :
    parseMetadata "t.vx" ["// @command: real", "// @command:"] =
      .error ("Missing @command in " ++ "t.vx") :=
  c10_empty_command "t.vx" ["// @command: real", "// @command:"]
    ⟨some "", 0, none, false⟩ rfl rfl

/-- Claim C1 counterexample: a suite containing a file without `@command`
followed by a healthy file does not report a per-file ConfigurationError and
continue — the ValueError escapes `run_test` and `main`'s loop, so the whole
run aborts with the exception and no report is produced. -/
theorem c1_counterexample :
    mainRun "/repo" [exBad, exGood] =
      .error "Missing @command in tests/a/test.vx" ∧
    (mainRun "/repo" [exBad, exGood]).isOk = false ∧
    runTest "/repo" exGood = .ok "" := ⟨rfl, rfl, rfl⟩

/-- Claim C1 (amended): a test file with malformed directives (non-integer
`@expect-exit`) or without `@command` makes `parse_metadata` raise a
ValueError; when every earlier file ran without raising, the exception
propagates uncaught out of `main`'s loop, aborting the whole suite run with
that error — the remaining files are not evaluated, no report is printed, and
the interpreter exits with status 1. -/
theorem c1_amended (root : String) (pre : List TestInput) (t : TestInput)
    (post : List TestInput) (e : String)
    (hok : ∀ t' ∈ pre, (runTest root t').isOk = true)
    (ht : parseMetadata t.path t.lines = .error e) :
    mainRun root (pre ++ t :: post) = .error e ∧
    processExit root (pre ++ t :: post) = 1 := by
  have hrt : runTest root t = .error e := by
    unfold runTest
    rw [ht]
  refine ⟨mainRun_error root pre t post e hok hrt, ?_⟩
  unfold processExit
  rw [mainRun_error root pre t post e hok hrt]

/-- Witness for the amended C1: one healthy file, then the bad file. -/
theorem c1_witness :
    mainRun "/repo" ([exGood] ++ exBad :: []) =
      .error "Missing @command in tests/a/test.vx" ∧
    processExit "/repo" ([exGood] ++ exBad :: []) = 1 :=
  c1_amended "/repo" [exGood] exBad [] "Missing @command in tests/a/test.vx"
    (by decide) rfl

/-- Claim C6 counterexample: with a missing-`@command` file in the suite, the
process exits 1 (uncaught exception) although zero test failures occurred —
the would-be-passing second file is never even evaluated — refuting
"exit code 0 iff zero test failures". -/
theorem c6_counterexample :
    processExit "/repo" [exBad, exGood] = 1 ∧
    runTest "/repo" exBad = .error "Missing @command in tests/a/test.vx" ∧
    runTest "/repo" exGood = .ok "" := ⟨rfl, rfl, rfl⟩

/-- Claim C6 (amended): provided every discovered file's directives parse
(no ConfigurationError is raised), the suite process exits 0 iff zero test
failures occurred — including the empty suite, which is reported and exits
0 — and one or more failures yield exit code exactly 1 with a report listing
each failure and carrying the failure count.  When some file's directives are
malformed, the run instead aborts with an uncaught exception and interpreter
exit 1 even if zero test failures occurred. -/
theorem c6_amended (root : String) (tests : List TestInput)
    (hok : ∀ t ∈ tests, (runTest root t).isOk = true) :
    (processExit root tests = 0 ↔ failuresOf root tests = []) ∧
    (failuresOf root tests ≠ [] →
      mainRun root tests = .ok (1,
        (failuresOf root tests).map (fun f => "FAIL: " ++ f) ++
        [toString (failuresOf root tests).length ++
          " backend C test(s) failed."])) ∧
    (tests = [] → mainRun root tests = .ok (0, ["No backend C tests found."])) := by
  have hm := mainRun_ok root tests hok
  by_cases hemp : tests.isEmpty = true
  · have htnil : tests = [] := List.isEmpty_iff.mp hemp
    subst htnil
    refine ⟨?_, ?_, fun _ => by rw [hm]; rfl⟩
    · unfold processExit
      rw [hm]
      simp [failuresOf]
    · intro hf
      exact absurd rfl hf
  · have hne : tests ≠ [] := fun h => hemp (by simp [h])
    rw [if_neg hemp] at hm
    by_cases hfe : (failuresOf root tests).isEmpty = true
    · have hfnil : failuresOf root tests = [] := List.isEmpty_iff.mp hfe
      rw [if_pos hfe] at hm
      refine ⟨?_, fun hf => absurd hfnil hf, fun h => absurd h hne⟩
      unfold processExit
      rw [hm]
      simp [hfnil]
    · have hfnil : failuresOf root tests ≠ [] := fun h => hfe (by simp [h])
      rw [if_neg hfe] at hm
      refine ⟨?_, fun _ => hm, fun h => absurd h hne⟩
      unfold processExit
      rw [hm]
      simp [hfnil]

/-- Witness for the amended C6 at a one-failure suite and at the empty
suite. -/
theorem c6_witness :
    ((processExit "/repo" [exFail] = 0 ↔ failuresOf "/repo" [exFail] = []) ∧
      (failuresOf "/repo" [exFail] ≠ [] →
        mainRun "/repo" [exFail] = .ok (1,
          (failuresOf "/repo" [exFail]).map (fun f => "FAIL: " ++ f) ++
          [toString (failuresOf "/repo" [exFail]).length ++
            " backend C test(s) failed."])) ∧
      ([exFail] = ([] : List TestInput) →
        mainRun "/repo" [exFail] = .ok (0, ["No backend C tests found."]))) ∧
    mainRun "/repo" ([] : List TestInput) =
      .ok (0, ["No backend C tests found."]) :=
  ⟨c6_amended "/repo" [exFail] (by decide),
    (c6_amended "/repo" [] (by simp)).2.2 rfl⟩
